import Mathlib

/-!
Verification of the colour core of `vscode-mariana` (`src/colour/colour.py`,
`src/colour/palette.py`) against its natural-language specification.

The Python code is shallowly embedded over exact rationals (`ℚ`): Python
numbers (int / float / Decimal) become `ℚ`, optional fields become
`Option ℚ`, a raised exception becomes `PyVal.raised` carrying the message,
and Python's banker's rounding (`round`) and modulo on numbers are modelled
explicitly below.
-/

deriving instance DecidableEq for Except

/-- Result of running a piece of Python code: either a returned value or a
raised exception carrying its message. -/
inductive PyVal (α : Type) where
  | val : α → PyVal α
  | raised : String → PyVal α
deriving DecidableEq, Repr

instance : Monad PyVal where
  pure := PyVal.val
  bind := fun x f =>
    match x with
    | .val a => f a
    | .raised e => .raised e

/-- Python's built-in `round(q)`: round half to even, as an integer. -/
def pyRound (q : ℚ) : ℤ :=
  let f := ⌊q⌋
  let r := q - (f : ℚ)
  if r < 1 / 2 then f
  else if 1 / 2 < r then f + 1
  else if f % 2 = 0 then f else f + 1

/-- Python's `round(q, 2)`: round half to even at two decimal places. -/
def pyRound2 (q : ℚ) : ℚ := (pyRound (q * 100) : ℚ) / 100

/-- Python's `x % m` on numbers (sign follows the divisor). -/
def pyMod (x m : ℚ) : ℚ := x - m * (⌊x / m⌋ : ℚ)

/-- Python's `x / y`: raises `ZeroDivisionError` when the divisor is zero. -/
def pyDiv (x y : ℚ) : PyVal ℚ :=
  if y = 0 then .raised "ZeroDivisionError: float division by zero"
  else .val (x / y)

/-- The dataclass `hsla` of `colour.py`: all four channel fields optional. -/
structure hsla where
  h : Option ℚ
  s : Option ℚ
  l : Option ℚ
  a : Option ℚ
deriving DecidableEq, Repr

/-- The dataclass `rgba` of `colour.py`: all four channel fields optional. -/
structure rgba where
  r : Option ℚ
  g : Option ℚ
  b : Option ℚ
  a : Option ℚ
deriving DecidableEq, Repr

/-- One guard line of the constructors, e.g.
`if h and not 0<=h<=359: raise ValueError(f'hue {h} not in range [0, 359]')`.
A value of `0` is falsy in Python, so the range test is skipped for it. -/
def checkRange (fieldName : String) (v : Option ℚ) (lo hi : ℚ)
    (rangeText : String) : Except String Unit :=
  match v with
  | none => .ok ()
  | some x =>
    if x ≠ 0 ∧ ¬(lo ≤ x ∧ x ≤ hi) then
      .error (fieldName ++ " " ++ toString x ++ " not in range " ++ rangeText)
    else .ok ()

/-- The percentage normalisation `v/100 if v>1 else v` applied on storage of
saturation, lightness and alpha. -/
def normPct (v : ℚ) : ℚ := if 1 < v then v / 100 else v

/-- Constructor `hsla.__init__`: four guard lines, then the conditional assignments
(fields stay `None` when the argument is `None`). -/
def hsla.mk' (h s l a : Option ℚ) : Except String hsla :=
  match checkRange "hue" h 0 359 "[0, 359]" with
  | .error e => .error e
  | .ok _ =>
  match checkRange "saturation" s 0 100 "[0, 100] or [0.0, 1.0]" with
  | .error e => .error e
  | .ok _ =>
  match checkRange "lightness" l 0 100 "[0, 100] or [0.0, 1.0]" with
  | .error e => .error e
  | .ok _ =>
  match checkRange "alpha" a 0 100 "[0, 100] or [0.0, 1.0]" with
  | .error e => .error e
  | .ok _ => .ok ⟨h, s.map normPct, l.map normPct, a.map normPct⟩

/-- Constructor `rgba.__init__`: four guard lines, then the conditional assignments;
only alpha is percentage-normalised. -/
def rgba.mk' (r g b a : Option ℚ) : Except String rgba :=
  match checkRange "red" r 0 255 "[0, 255]" with
  | .error e => .error e
  | .ok _ =>
  match checkRange "green" g 0 255 "[0, 255]" with
  | .error e => .error e
  | .ok _ =>
  match checkRange "blue" b 0 255 "[0, 255]" with
  | .error e => .error e
  | .ok _ =>
  match checkRange "alpha" a 0 100 "[0, 100] or [0.0, 1.0]" with
  | .error e => .error e
  | .ok _ => .ok ⟨r, g, b, a.map normPct⟩

/-- Method `hsla.clone`: each argument defaults to the receiver's field and the
merged arguments are passed to the constructor. -/
def hsla.clone (c : hsla) (h s l a : Option ℚ) : Except String hsla :=
  hsla.mk' (h <|> c.h) (s <|> c.s) (l <|> c.l) (a <|> c.a)

/-- Method `rgba.clone`: each argument defaults to the receiver's field and the
merged arguments are passed to the constructor. -/
def rgba.clone (c : rgba) (r g b a : Option ℚ) : Except String rgba :=
  rgba.mk' (r <|> c.r) (g <|> c.g) (b <|> c.b) (a <|> c.a)

/-- Method `hsla.to_hsla`: returns self. -/
def hsla.to_hsla (c : hsla) : hsla := c

/-- Method `rgba.to_rgba`: returns self. -/
def rgba.to_rgba (c : rgba) : rgba := c

/-- Method `hsla.to_rgba`: the C/X/m sextant-table conversion.  Arithmetic on an
unset field raises `TypeError` (the code touches `l`, then `s`, then `h`);
when no sextant matches, the Python loop falls through and the function
returns `None`; the result is built through the validating `rgba`
constructor, whose `ValueError` propagates. -/
def hsla.to_rgba (c : hsla) : PyVal (Option rgba) :=
  match c.l with
  | none => .raised "TypeError: unsupported operand type for NoneType"
  | some l =>
  match c.s with
  | none => .raised "TypeError: unsupported operand type for NoneType"
  | some s =>
  match c.h with
  | none => .raised "TypeError: unsupported operand type for NoneType"
  | some h =>
    let C := (1 - |2 * l - 1|) * s
    let X := C * (1 - |pyMod (h / 60) 2 - 1|)
    let m := l - C / 2
    let sextant : Option (ℚ × ℚ × ℚ) :=
      if 0 ≤ h ∧ h < 60 then some (C, X, 0)
      else if 60 ≤ h ∧ h < 120 then some (X, C, 0)
      else if 120 ≤ h ∧ h < 180 then some (0, C, X)
      else if 180 ≤ h ∧ h < 240 then some (0, X, C)
      else if 240 ≤ h ∧ h < 300 then some (X, 0, C)
      else if 300 ≤ h ∧ h < 360 then some (C, 0, X)
      else none
    match sextant with
    | none => .val none
    | some (r_, g_, b_) =>
      match rgba.mk' (some ((pyRound ((r_ + m) * 255) : ℤ) : ℚ))
          (some ((pyRound ((g_ + m) * 255) : ℤ) : ℚ))
          (some ((pyRound ((b_ + m) * 255) : ℤ) : ℚ)) c.a with
      | .ok v => .val (some v)
      | .error e => .raised e

/-- Method `rgba.normalise`: the triple of r, g, b each divided by 255; raises `TypeError` when a
channel is unset. -/
def rgba.normalise (c : rgba) : PyVal (ℚ × ℚ × ℚ) :=
  match c.r, c.g, c.b with
  | some r, some g, some b => .val (r / 255, g / 255, b / 255)
  | _, _, _ => .raised "TypeError: unsupported operand type for NoneType"

/-- Method `rgba.to_hsla`: normalise, take max/min/delta, hue by branch table
(ties resolved in r, g, b order), lightness and saturation rounded to two
decimals, then rebuild through the validating `hsla` constructor. -/
def rgba.to_hsla (c : rgba) : PyVal hsla := do
  let (r_, g_, b_) ← c.normalise
  let cmax := max r_ (max g_ b_)
  let cmin := min r_ (min g_ b_)
  let delta := cmax - cmin
  let hq : ℚ ←
    if delta = 0 then pure 0
    else if cmax = r_ then do
      let q ← pyDiv (g_ - b_) delta
      pure (60 * pyMod q 6)
    else if cmax = g_ then do
      let q ← pyDiv (b_ - r_) delta
      pure (60 * (q + 2))
    else if cmax = b_ then do
      let q ← pyDiv (r_ - g_) delta
      pure (60 * (q + 4))
    else PyVal.raised "TypeError: round of NoneType"
  let H : ℤ := pyRound hq
  let L : ℚ := pyRound2 ((cmax + cmin) / 2)
  let sq ← pyDiv delta (1 - |2 * L - 1|)
  let S : ℚ := pyRound2 sq
  match hsla.mk' (some (H : ℚ)) (some S) (some L) c.a with
  | .ok v => pure v
  | .error e => PyVal.raised e

/-- Lowercase hexadecimal rendering of an integer under Python's format
specification `02x` (zero-padded to width two). -/
def format02x (n : ℤ) : String :=
  if n < 0 then "-" ++ String.mk (Nat.toDigits 16 n.natAbs)
  else
    let t := String.mk (Nat.toDigits 16 n.toNat)
    if t.length = 1 then "0" ++ t else t

/-- Python's `f'{v:02x}'` on an optional channel value: `None` and
non-integers raise. -/
def pyFormat02x (v : Option ℚ) : PyVal String :=
  match v with
  | none => .raised "TypeError: unsupported format string passed to NoneType"
  | some q =>
    if q.den = 1 then .val (format02x q.num)
    else .raised "ValueError: Unknown format code x for object of type float"

/-- The single shared body of `Colour.to_hex`, applied to the result of
`self.to_rgba()`: the alpha suffix is rendered first and appended exactly
when alpha is set and not equal to 1. -/
def Colour.to_hex_of (res : PyVal (Option rgba)) : PyVal String :=
  match res with
  | .raised e => .raised e
  | .val none => .raised "AttributeError: NoneType object has no attribute a"
  | .val (some c) => do
    let alphaPart : String ←
      match c.a with
      | some av => if av ≠ 1 then pure (format02x (pyRound (av * 255))) else pure ""
      | none => pure ""
    let rs ← pyFormat02x c.r
    let gs ← pyFormat02x c.g
    let bs ← pyFormat02x c.b
    pure ("#" ++ rs ++ gs ++ bs ++ alphaPart)

/-- Inherited `to_hex` of `rgba`: the shared body over `self.to_rgba() = self`. -/
def rgba.to_hex (c : rgba) : PyVal String := Colour.to_hex_of (.val (some c.to_rgba))

/-- Inherited `to_hex` of `hsla`: the shared body over `self.to_rgba()`. -/
def hsla.to_hex (c : hsla) : PyVal String := Colour.to_hex_of c.to_rgba

/-- Field ranges of a well-formed `hsla` value (what successful construction
guarantees): hue in `[0, 359]`, the stored fractions in `[0, 1]`. -/
def hsla.valid (c : hsla) : Bool :=
  c.h.all (fun x => decide (0 ≤ x ∧ x ≤ 359)) &&
  c.s.all (fun x => decide (0 ≤ x ∧ x ≤ 1)) &&
  c.l.all (fun x => decide (0 ≤ x ∧ x ≤ 1)) &&
  c.a.all (fun x => decide (0 ≤ x ∧ x ≤ 1))

/-- Field ranges of a well-formed `rgba` value: channels in `[0, 255]`, the
stored alpha fraction in `[0, 1]`. -/
def rgba.valid (c : rgba) : Bool :=
  c.r.all (fun x => decide (0 ≤ x ∧ x ≤ 255)) &&
  c.g.all (fun x => decide (0 ≤ x ∧ x ≤ 255)) &&
  c.b.all (fun x => decide (0 ≤ x ∧ x ≤ 255)) &&
  c.a.all (fun x => decide (0 ≤ x ∧ x ≤ 1))

/-- A value stored as a class attribute of a palette class: either a
`Colour` instance or any other attribute (docstring, method, module dunder);
`MetaPalette.__iter__` keeps only the `Colour` instances. -/
inductive PyAttr where
  | colourH : hsla → PyAttr
  | colourR : rgba → PyAttr
  | nonColour : PyAttr
deriving DecidableEq, Repr

/-- A colour entry as yielded by palette enumeration. -/
inductive ColourValue where
  | ofHsla : hsla → ColourValue
  | ofRgba : rgba → ColourValue
deriving DecidableEq, Repr

/-- A palette class: its own `__dict__` entries in definition order and,
unless it is the root (whose `__base__` is the non-iterable `object`), its
single base class. -/
inductive PaletteClass where
  | root : List (String × PyAttr) → PaletteClass
  | derived : List (String × PyAttr) → PaletteClass → PaletteClass
deriving DecidableEq, Repr

/-- The `isinstance(attr, Colour)` filter of `MetaPalette.__iter__` applied
to a `__dict__`. -/
def colourEntries (own : List (String × PyAttr)) : List (String × ColourValue) :=
  own.filterMap (fun p =>
    match p.2 with
    | .colourH c => some (p.1, .ofHsla c)
    | .colourR c => some (p.1, .ofRgba c)
    | .nonColour => none)

/-- Metaclass method `MetaPalette.__iter__`: own colour entries first, then (when the base is
iterable) all entries of the base; on the root class iterating `object`
raises `TypeError`, caught to yield only the own entries. -/
def PaletteClass.iter : PaletteClass → List (String × ColourValue)
  | .root own => colourEntries own
  | .derived own parent => colourEntries own ++ parent.iter

/-- Constant `Palette.BLACK = rgba(0, 0, 0)`. -/
def BLACK : rgba := ⟨some 0, some 0, some 0, none⟩

/-- Constant `Palette.WHITE = rgba(255, 255, 255)`. -/
def WHITE : rgba := ⟨some 255, some 255, some 255, none⟩

/-- Constant `Palette.SHADOW = BLACK.clone(a=50)` (alpha 50 normalised to 1/2). -/
def SHADOW : rgba := ⟨some 0, some 0, some 0, some (1 / 2)⟩

/-- Constant `Palette.TRANSPARENT = BLACK.clone(a=0)` (alpha 0 accepted and stored). -/
def TRANSPARENT : rgba := ⟨some 0, some 0, some 0, some 0⟩

/-- The root `Palette` class of `palette.py`: a docstring plus four colour
attributes, in definition order. -/
def Palette : PaletteClass :=
  .root [("__doc__", .nonColour),
         ("BLACK", .colourR BLACK),
         ("WHITE", .colourR WHITE),
         ("SHADOW", .colourR SHADOW),
         ("TRANSPARENT", .colourR TRANSPARENT)]

/-- A derived palette that redefines a name of its base, as any user of
`class MyPalette(Palette): BLACK = rgba(1, 2, 3)` would produce. -/
def DerivedWithCollision : PaletteClass :=
  .derived [("__doc__", .nonColour),
            ("BLACK", .colourR ⟨some 1, some 2, some 3, none⟩)] Palette

/-- The methods `Colour` declares `@abstractmethod` in `colour.py`. -/
def colourAbstractMethods : List String := ["to_hsla", "to_rgba", "to_hex"]

/-- The methods the class body of `hsla` defines. -/
def hslaOwnMethods : List String :=
  ["__init__", "__call__", "clone", "to_hsla", "to_rgba"]

/-- The methods the class body of `rgba` defines. -/
def rgbaOwnMethods : List String :=
  ["__init__", "clone", "normalise", "to_hsla", "to_rgba"]

/-- The `__abstractmethods__` a subclass of `Colour` is left with: the
declared abstract methods its own body does not override. -/
def remainingAbstract (ownMethods : List String) : List String :=
  colourAbstractMethods.filter (fun m => !ownMethods.contains m)

/-- Python's `ABCMeta` permits instantiation exactly when no abstract
method is left unimplemented. -/
def pythonCanInstantiate (ownMethods : List String) : Bool :=
  (remainingAbstract ownMethods).isEmpty

/-- One grey round trip of the amended round-trip property: send
`rgba(v,v,v)` through `to_hsla` then `to_rgba` and compare channels
within plus or minus 1. -/
def greyRoundTrip (v : ℕ) : Bool :=
  match rgba.to_hsla ⟨some (v : ℚ), some (v : ℚ), some (v : ℚ), none⟩ with
  | .raised _ => false
  | .val hs =>
    match hsla.to_rgba hs with
    | .val (some c) =>
      match c.r, c.g, c.b with
      | some r, some g, some b =>
        decide (|r - (v : ℚ)| ≤ 1 ∧ |g - (v : ℚ)| ≤ 1 ∧ |b - (v : ℚ)| ≤ 1)
      | _, _, _ => false
    | _ => false

/-- One fully-saturated mid-lightness round trip of the amended round-trip
property: construct `hsla(h, 100, 50)`, send it through `to_rgba` then
`to_hsla`, and require hue within plus or minus 1 degree with saturation
and lightness reproduced exactly. -/
def saturatedRoundTrip (hue : ℕ) : Bool :=
  match hsla.mk' (some (hue : ℚ)) (some 100) (some 50) none with
  | .error _ => false
  | .ok hs =>
    match hsla.to_rgba hs with
    | .val (some c) =>
      match rgba.to_hsla c with
      | .val hs2 =>
        match hs2.h, hs2.s, hs2.l with
        | some H, some S, some L =>
          decide (|H - (hue : ℚ)| ≤ 1 ∧ S = 1 ∧ L = 1 / 2)
        | _, _, _ => false
      | .raised _ => false
    | _ => false

theorem PyVal.bind_val {α β : Type} (x : α) (f : α → PyVal β) :
    (PyVal.val x >>= f) = f x := rfl

theorem PyVal.bind_raised {α β : Type} (e : String) (f : α → PyVal β) :
    (PyVal.raised e >>= f : PyVal β) = PyVal.raised e := rfl

theorem option_all_eq_true (p : ℚ → Prop) [DecidablePred p] (o : Option ℚ) :
    (o.all fun x => decide (p x)) = true ↔ ∀ x ∈ o, p x := by
  cases o <;> simp [Option.all]

theorem checkRange_ok_iff (n : String) (v : Option ℚ) (hi : ℚ) (t : String)
    (hhi : 0 ≤ hi) :
    checkRange n v 0 hi t = .ok () ↔ ∀ x ∈ v, 0 ≤ x ∧ x ≤ hi := by
  cases v with
  | none => simp [checkRange]
  | some x =>
    simp only [checkRange]
    by_cases hc : x ≠ 0 ∧ ¬(0 ≤ x ∧ x ≤ hi)
    · rw [if_pos hc]
      constructor
      · intro hcon; exact absurd hcon (by simp)
      · intro hall; exact absurd (hall x rfl) hc.2
    · rw [if_neg hc]
      push_neg at hc
      constructor
      · intro _ y hy
        rw [Option.mem_def, Option.some.injEq] at hy
        subst hy
        by_cases h0 : x = 0
        · subst h0; exact ⟨le_refl 0, hhi⟩
        · exact hc h0
      · intro _; rfl

theorem checkRange_error_of (n : String) (v : Option ℚ) (hi : ℚ) (t : String)
    (hhi : 0 ≤ hi) (hbad : ¬∀ x ∈ v, 0 ≤ x ∧ x ≤ hi) :
    ∃ e, checkRange n v 0 hi t = .error e := by
  cases v with
  | none => simp at hbad
  | some x =>
    have hx : ¬(0 ≤ x ∧ x ≤ hi) := by
      intro hx
      refine hbad ?_
      intro y hy
      rw [Option.mem_def, Option.some.injEq] at hy
      subst hy
      exact hx
    have hx0 : x ≠ 0 := by
      intro h0; subst h0; exact hx ⟨le_refl 0, hhi⟩
    exact ⟨_, by simp only [checkRange]; rw [if_pos ⟨hx0, hx⟩]⟩

theorem hsla_mk_ok_of (h s l a : Option ℚ)
    (Hh : ∀ x ∈ h, 0 ≤ x ∧ x ≤ 359) (Hs : ∀ x ∈ s, 0 ≤ x ∧ x ≤ 100)
    (Hl : ∀ x ∈ l, 0 ≤ x ∧ x ≤ 100) (Ha : ∀ x ∈ a, 0 ≤ x ∧ x ≤ 100) :
    hsla.mk' h s l a =
      .ok ⟨h, s.map normPct, l.map normPct, a.map normPct⟩ := by
  unfold hsla.mk'
  rw [(checkRange_ok_iff _ _ _ _ (by norm_num)).mpr Hh,
      (checkRange_ok_iff _ _ _ _ (by norm_num)).mpr Hs,
      (checkRange_ok_iff _ _ _ _ (by norm_num)).mpr Hl,
      (checkRange_ok_iff _ _ _ _ (by norm_num)).mpr Ha]

theorem hsla_mk_error_of (h s l a : Option ℚ)
    (hbad : ¬((∀ x ∈ h, 0 ≤ x ∧ x ≤ 359) ∧ (∀ x ∈ s, 0 ≤ x ∧ x ≤ 100)
      ∧ (∀ x ∈ l, 0 ≤ x ∧ x ≤ 100) ∧ (∀ x ∈ a, 0 ≤ x ∧ x ≤ 100))) :
    ∃ e, hsla.mk' h s l a = .error e := by
  by_cases Hh : ∀ x ∈ h, 0 ≤ x ∧ x ≤ 359
  · by_cases Hs : ∀ x ∈ s, 0 ≤ x ∧ x ≤ 100
    · by_cases Hl : ∀ x ∈ l, 0 ≤ x ∧ x ≤ 100
      · by_cases Ha : ∀ x ∈ a, 0 ≤ x ∧ x ≤ 100
        · exact absurd ⟨Hh, Hs, Hl, Ha⟩ hbad
        · obtain ⟨e, he⟩ := checkRange_error_of "alpha" a 100
            "[0, 100] or [0.0, 1.0]" (by norm_num) Ha
          refine ⟨e, ?_⟩
          unfold hsla.mk'
          rw [(checkRange_ok_iff _ _ _ _ (by norm_num)).mpr Hh,
              (checkRange_ok_iff _ _ _ _ (by norm_num)).mpr Hs,
              (checkRange_ok_iff _ _ _ _ (by norm_num)).mpr Hl, he]
      · obtain ⟨e, he⟩ := checkRange_error_of "lightness" l 100
          "[0, 100] or [0.0, 1.0]" (by norm_num) Hl
        refine ⟨e, ?_⟩
        unfold hsla.mk'
        rw [(checkRange_ok_iff _ _ _ _ (by norm_num)).mpr Hh,
            (checkRange_ok_iff _ _ _ _ (by norm_num)).mpr Hs, he]
    · obtain ⟨e, he⟩ := checkRange_error_of "saturation" s 100
        "[0, 100] or [0.0, 1.0]" (by norm_num) Hs
      refine ⟨e, ?_⟩
      unfold hsla.mk'
      rw [(checkRange_ok_iff _ _ _ _ (by norm_num)).mpr Hh, he]
  · obtain ⟨e, he⟩ := checkRange_error_of "hue" h 359 "[0, 359]"
      (by norm_num) Hh
    refine ⟨e, ?_⟩
    unfold hsla.mk'
    rw [he]

theorem hsla_mk_ok_inv (h s l a : Option ℚ) (d : hsla)
    (hd : hsla.mk' h s l a = .ok d) :
    d = ⟨h, s.map normPct, l.map normPct, a.map normPct⟩
    ∧ (∀ x ∈ h, 0 ≤ x ∧ x ≤ 359) ∧ (∀ x ∈ s, 0 ≤ x ∧ x ≤ 100)
    ∧ (∀ x ∈ l, 0 ≤ x ∧ x ≤ 100) ∧ (∀ x ∈ a, 0 ≤ x ∧ x ≤ 100) := by
  by_cases hb : (∀ x ∈ h, 0 ≤ x ∧ x ≤ 359) ∧ (∀ x ∈ s, 0 ≤ x ∧ x ≤ 100)
      ∧ (∀ x ∈ l, 0 ≤ x ∧ x ≤ 100) ∧ (∀ x ∈ a, 0 ≤ x ∧ x ≤ 100)
  · obtain ⟨Hh, Hs, Hl, Ha⟩ := hb
    have hok := hsla_mk_ok_of h s l a Hh Hs Hl Ha
    rw [hok] at hd
    simp only [Except.ok.injEq] at hd
    exact ⟨hd.symm, Hh, Hs, Hl, Ha⟩
  · obtain ⟨e, he⟩ := hsla_mk_error_of h s l a hb
    rw [he] at hd
    exact absurd hd (by simp)
theorem rgba_mk_ok_of (r g b a : Option ℚ)
    (Hr : ∀ x ∈ r, 0 ≤ x ∧ x ≤ 255) (Hg : ∀ x ∈ g, 0 ≤ x ∧ x ≤ 255)
    (Hb : ∀ x ∈ b, 0 ≤ x ∧ x ≤ 255) (Ha : ∀ x ∈ a, 0 ≤ x ∧ x ≤ 100) :
    rgba.mk' r g b a = .ok ⟨r, g, b, a.map normPct⟩ := by
  unfold rgba.mk'
  rw [(checkRange_ok_iff _ _ _ _ (by norm_num)).mpr Hr,
      (checkRange_ok_iff _ _ _ _ (by norm_num)).mpr Hg,
      (checkRange_ok_iff _ _ _ _ (by norm_num)).mpr Hb,
      (checkRange_ok_iff _ _ _ _ (by norm_num)).mpr Ha]

theorem rgba_mk_error_of (r g b a : Option ℚ)
    (hbad : ¬((∀ x ∈ r, 0 ≤ x ∧ x ≤ 255) ∧ (∀ x ∈ g, 0 ≤ x ∧ x ≤ 255)
      ∧ (∀ x ∈ b, 0 ≤ x ∧ x ≤ 255) ∧ (∀ x ∈ a, 0 ≤ x ∧ x ≤ 100))) :
    ∃ e, rgba.mk' r g b a = .error e := by
  by_cases Hr : ∀ x ∈ r, 0 ≤ x ∧ x ≤ 255
  · by_cases Hg : ∀ x ∈ g, 0 ≤ x ∧ x ≤ 255
    · by_cases Hb : ∀ x ∈ b, 0 ≤ x ∧ x ≤ 255
      · by_cases Ha : ∀ x ∈ a, 0 ≤ x ∧ x ≤ 100
        · exact absurd ⟨Hr, Hg, Hb, Ha⟩ hbad
        · obtain ⟨e, he⟩ := checkRange_error_of "alpha" a 100
            "[0, 100] or [0.0, 1.0]" (by norm_num) Ha
          refine ⟨e, ?_⟩
          unfold rgba.mk'
          rw [(checkRange_ok_iff _ _ _ _ (by norm_num)).mpr Hr,
              (checkRange_ok_iff _ _ _ _ (by norm_num)).mpr Hg,
              (checkRange_ok_iff _ _ _ _ (by norm_num)).mpr Hb, he]
      · obtain ⟨e, he⟩ := checkRange_error_of "blue" b 255 "[0, 255]"
          (by norm_num) Hb
        refine ⟨e, ?_⟩
        unfold rgba.mk'
        rw [(checkRange_ok_iff _ _ _ _ (by norm_num)).mpr Hr,
            (checkRange_ok_iff _ _ _ _ (by norm_num)).mpr Hg, he]
    · obtain ⟨e, he⟩ := checkRange_error_of "green" g 255 "[0, 255]"
        (by norm_num) Hg
      refine ⟨e, ?_⟩
      unfold rgba.mk'
      rw [(checkRange_ok_iff _ _ _ _ (by norm_num)).mpr Hr, he]
  · obtain ⟨e, he⟩ := checkRange_error_of "red" r 255 "[0, 255]"
      (by norm_num) Hr
    refine ⟨e, ?_⟩
    unfold rgba.mk'
    rw [he]

theorem rgba_mk_ok_inv (r g b a : Option ℚ) (d : rgba)
    (hd : rgba.mk' r g b a = .ok d) :
    d = ⟨r, g, b, a.map normPct⟩
    ∧ (∀ x ∈ r, 0 ≤ x ∧ x ≤ 255) ∧ (∀ x ∈ g, 0 ≤ x ∧ x ≤ 255)
    ∧ (∀ x ∈ b, 0 ≤ x ∧ x ≤ 255) ∧ (∀ x ∈ a, 0 ≤ x ∧ x ≤ 100) := by
  by_cases hb : (∀ x ∈ r, 0 ≤ x ∧ x ≤ 255) ∧ (∀ x ∈ g, 0 ≤ x ∧ x ≤ 255)
      ∧ (∀ x ∈ b, 0 ≤ x ∧ x ≤ 255) ∧ (∀ x ∈ a, 0 ≤ x ∧ x ≤ 100)
  · obtain ⟨Hr, Hg, Hb, Ha⟩ := hb
    have hok := rgba_mk_ok_of r g b a Hr Hg Hb Ha
    rw [hok] at hd
    simp only [Except.ok.injEq] at hd
    exact ⟨hd.symm, Hr, Hg, Hb, Ha⟩
  · obtain ⟨e, he⟩ := rgba_mk_error_of r g b a hb
    rw [he] at hd
    exact absurd hd (by simp)

theorem map_normPct_of_unit (o : Option ℚ) (ho : ∀ x ∈ o, 0 ≤ x ∧ x ≤ 1) :
    o.map normPct = o := by
  cases o with
  | none => rfl
  | some x =>
    have hx := ho x rfl
    simp [normPct, not_lt.mpr hx.2]

theorem hsla_valid_iff (c : hsla) :
    c.valid = true ↔ (∀ x ∈ c.h, 0 ≤ x ∧ x ≤ 359) ∧ (∀ x ∈ c.s, 0 ≤ x ∧ x ≤ 1)
      ∧ (∀ x ∈ c.l, 0 ≤ x ∧ x ≤ 1) ∧ (∀ x ∈ c.a, 0 ≤ x ∧ x ≤ 1) := by
  unfold hsla.valid
  rw [Bool.and_eq_true, Bool.and_eq_true, Bool.and_eq_true,
      option_all_eq_true (fun x => 0 ≤ x ∧ x ≤ 359),
      option_all_eq_true (fun x => 0 ≤ x ∧ x ≤ 1),
      option_all_eq_true (fun x => 0 ≤ x ∧ x ≤ 1),
      option_all_eq_true (fun x => 0 ≤ x ∧ x ≤ 1)]
  tauto

theorem rgba_valid_iff (c : rgba) :
    c.valid = true ↔ (∀ x ∈ c.r, 0 ≤ x ∧ x ≤ 255) ∧ (∀ x ∈ c.g, 0 ≤ x ∧ x ≤ 255)
      ∧ (∀ x ∈ c.b, 0 ≤ x ∧ x ≤ 255) ∧ (∀ x ∈ c.a, 0 ≤ x ∧ x ≤ 1) := by
  unfold rgba.valid
  rw [Bool.and_eq_true, Bool.and_eq_true, Bool.and_eq_true,
      option_all_eq_true (fun x => 0 ≤ x ∧ x ≤ 255),
      option_all_eq_true (fun x => 0 ≤ x ∧ x ≤ 255),
      option_all_eq_true (fun x => 0 ≤ x ∧ x ≤ 255),
      option_all_eq_true (fun x => 0 ≤ x ∧ x ≤ 1)]
  tauto
set_option maxRecDepth 40000

set_option maxHeartbeats 8000000

/-- C1: the claim states that `rgba.to_hsla` is total over valid inputs and
that the degenerate lightness 0 or 1 case yields a deterministic result
such as saturation 0 instead of an arithmetic error.  The code instead
raises: on `rgba(0,0,0)` and `rgba(255,255,255)` the saturation line
divides by zero (`ZeroDivisionError`), and on `rgba(150,0,1)` the hue
formula rounds to 360, which the reconstruction through the `hsla`
constructor rejects (`ValueError`).  This theorem evaluates the code at
those failing inputs, each of which passes construction-time validation. -/
theorem C1_to_hsla_raises_on_valid_rgba :
    rgba.mk' (some 0) (some 0) (some 0) none = .ok ⟨some 0, some 0, some 0, none⟩
    ∧ rgba.to_hsla ⟨some 0, some 0, some 0, none⟩ =
        .raised "ZeroDivisionError: float division by zero"
    ∧ rgba.mk' (some 255) (some 255) (some 255) none = .ok WHITE
    ∧ rgba.to_hsla WHITE = .raised "ZeroDivisionError: float division by zero"
    ∧ rgba.mk' (some 150) (some 0) (some 1) none =
        .ok ⟨some 150, some 0, some 1, none⟩
    ∧ rgba.to_hsla ⟨some 150, some 0, some 1, none⟩ =
        .raised "hue 360 not in range [0, 359]" := by
  refine ⟨?_, ?_, ?_, ?_, ?_, ?_⟩ <;> with_unfolding_all rfl

/-- C2 counterexample: both round-trip bounds of the claim fail on the
code.  The valid value `hsla(180, 0.001, 0.4)` renders to the grey
`rgba(102,102,102)`, which converts back to hue 0 — an error of 180
degrees, far beyond the claimed 1 degree.  The valid value `rgba(150,1,0)`
converts to a saturation of 1.01, which the `hsla` constructor
reinterprets as the percentage 0.0101, so converting back yields red 75 —
an error of 75, far beyond the claimed 1. -/
theorem C2_round_trip_counterexample :
    hsla.mk' (some 180) (some (1 / 1000)) (some (2 / 5)) none =
      .ok ⟨some 180, some (1 / 1000), some (2 / 5), none⟩
    ∧ hsla.to_rgba ⟨some 180, some (1 / 1000), some (2 / 5), none⟩ =
        .val (some ⟨some 102, some 102, some 102, none⟩)
    ∧ rgba.to_hsla ⟨some 102, some 102, some 102, none⟩ =
        .val ⟨some 0, some 0, some (2 / 5), none⟩
    ∧ ¬(|(0 : ℚ) - 180| ≤ 1)
    ∧ rgba.mk' (some 150) (some 1) (some 0) none =
        .ok ⟨some 150, some 1, some 0, none⟩
    ∧ rgba.to_hsla ⟨some 150, some 1, some 0, none⟩ =
        .val ⟨some 0, some (101 / 10000), some (29 / 100), none⟩
    ∧ hsla.to_rgba ⟨some 0, some (101 / 10000), some (29 / 100), none⟩ =
        .val (some ⟨some 75, some 73, some 73, none⟩)
    ∧ ¬(|(75 : ℚ) - 150| ≤ 1) := by
  refine ⟨?_, ?_, ?_, ?_, ?_, ?_, ?_, ?_⟩
  · with_unfolding_all rfl
  · with_unfolding_all rfl
  · with_unfolding_all rfl
  · with_unfolding_all decide
  · with_unfolding_all rfl
  · with_unfolding_all rfl
  · with_unfolding_all rfl
  · with_unfolding_all decide

/-- C2 amended: the round-trip bounds hold in restricted regimes.  Every
grey `rgba(v,v,v)` with `2 ≤ v ≤ 253` (outside that range `to_hsla`
raises) comes back through `to_hsla` then `to_rgba` with every channel
within 1; every fully saturated mid-lightness `hsla(h,100,50)` with
integer hue comes back through `to_rgba` then `to_hsla` with hue within 1
degree and saturation and lightness reproduced exactly. -/
theorem C2_round_trip_restricted :
    (∀ v : Fin 254, 2 ≤ v.val → greyRoundTrip v.val = true)
    ∧ (∀ hue : Fin 360, saturatedRoundTrip hue.val = true) := by
  with_unfolding_all decide

/-- C2 witness: the amended round trip evaluated at grey 128 and hue 240. -/
theorem C2_round_trip_restricted_witness :
    greyRoundTrip 128 = true ∧ saturatedRoundTrip 240 = true :=
  ⟨C2_round_trip_restricted.1 ⟨128, by norm_num⟩ (by norm_num),
   C2_round_trip_restricted.2 ⟨240, by norm_num⟩⟩

/-- C6: the three pure primaries convert exactly: `hsla(0,100,50)` to
`rgba(255,0,0)`, `hsla(120,100,50)` to `rgba(0,255,0)` and
`hsla(240,100,50)` to `rgba(0,0,255)`, through the sextant table with
independent channel rounding; each equality is stated against the value
the `rgba` constructor builds. -/
theorem C6_primary_conversions :
    hsla.mk' (some 0) (some 100) (some 50) none =
      .ok ⟨some 0, some 1, some (1 / 2), none⟩
    ∧ hsla.to_rgba ⟨some 0, some 1, some (1 / 2), none⟩ =
        .val (some ⟨some 255, some 0, some 0, none⟩)
    ∧ rgba.mk' (some 255) (some 0) (some 0) none =
        .ok ⟨some 255, some 0, some 0, none⟩
    ∧ hsla.mk' (some 120) (some 100) (some 50) none =
        .ok ⟨some 120, some 1, some (1 / 2), none⟩
    ∧ hsla.to_rgba ⟨some 120, some 1, some (1 / 2), none⟩ =
        .val (some ⟨some 0, some 255, some 0, none⟩)
    ∧ rgba.mk' (some 0) (some 255) (some 0) none =
        .ok ⟨some 0, some 255, some 0, none⟩
    ∧ hsla.mk' (some 240) (some 100) (some 50) none =
        .ok ⟨some 240, some 1, some (1 / 2), none⟩
    ∧ hsla.to_rgba ⟨some 240, some 1, some (1 / 2), none⟩ =
        .val (some ⟨some 0, some 0, some 255, none⟩)
    ∧ rgba.mk' (some 0) (some 0) (some 255) none =
        .ok ⟨some 0, some 0, some 255, none⟩ := by
  refine ⟨?_, ?_, ?_, ?_, ?_, ?_, ?_, ?_, ?_⟩ <;> with_unfolding_all rfl
/-- C8: hex rendering has a single shared body (`Colour.to_hex_of`, the body
of `Colour.to_hex` applied to `self.to_rgba()`), and both variants resolve
`to_hex` to it without duplicating it.  However the source decorates this
default with `@abstractmethod` and neither `hsla` nor `rgba` overrides it,
so `ABCMeta` refuses to instantiate either class: `to_hex` can never
actually be called on a constructed value because no value can be
constructed. -/
theorem C8_to_hex_shared_default_unimplemented :
    remainingAbstract hslaOwnMethods = ["to_hex"]
    ∧ remainingAbstract rgbaOwnMethods = ["to_hex"]
    ∧ pythonCanInstantiate hslaOwnMethods = false
    ∧ pythonCanInstantiate rgbaOwnMethods = false
    ∧ (∀ c : rgba, rgba.to_hex c = Colour.to_hex_of (.val (some c.to_rgba)))
    ∧ (∀ c : hsla, hsla.to_hex c = Colour.to_hex_of c.to_rgba) :=
  ⟨by decide, by decide, by decide, by decide, fun _ => rfl, fun _ => rfl⟩

/-- C9 counterexample: `MetaPalette.__iter__` performs no deduplication, so
a derived palette that redefines `BLACK` enumerates the name twice — once
with its own value and once with the base value — contradicting the
claimed shadowing with no duplicate names. -/
theorem C9_shadowing_counterexample :
    DerivedWithCollision.iter.map Prod.fst =
      ["BLACK", "BLACK", "WHITE", "SHADOW", "TRANSPARENT"]
    ∧ (DerivedWithCollision.iter.map Prod.fst).count "BLACK" = 2
    ∧ ¬(DerivedWithCollision.iter.map Prod.fst).Nodup := by
  refine ⟨rfl, by decide, by decide⟩

/-- C9 amended: a derived palette enumerates its own colour entries first
and all base entries after them; on a name collision both entries appear,
the derived one first, so the enumeration can contain duplicate names.
The base `Palette` values are built from construction and `clone` exactly
as in `palette.py`. -/
theorem C9_enumeration_derived_then_base :
    (∀ (own : List (String × PyAttr)) (parent : PaletteClass),
      (PaletteClass.derived own parent).iter = colourEntries own ++ parent.iter)
    ∧ Palette.iter.map Prod.fst = ["BLACK", "WHITE", "SHADOW", "TRANSPARENT"]
    ∧ DerivedWithCollision.iter.head? =
        some ("BLACK", .ofRgba ⟨some 1, some 2, some 3, none⟩)
    ∧ DerivedWithCollision.iter.getLast? = some ("TRANSPARENT", .ofRgba TRANSPARENT)
    ∧ rgba.mk' (some 0) (some 0) (some 0) none = .ok BLACK
    ∧ rgba.mk' (some 255) (some 255) (some 255) none = .ok WHITE
    ∧ BLACK.clone none none none (some 50) = .ok SHADOW
    ∧ BLACK.clone none none none (some 0) = .ok TRANSPARENT := by
  refine ⟨fun own parent => rfl, ?_, ?_, ?_, ?_, ?_, ?_, ?_⟩ <;> with_unfolding_all rfl

/-- C10: each conversion needs its three channels set: `hsla.to_rgba`
raises `TypeError` as soon as any of `h`, `s`, `l` is unset, and
`rgba.to_hsla` raises `TypeError` (inside `normalise`) as soon as any of
`r`, `g`, `b` is unset, instead of returning a colour. -/
theorem C10_conversions_require_channels :
    (∀ c : hsla, (c.h = none ∨ c.s = none ∨ c.l = none) →
      ∃ e, hsla.to_rgba c = .raised e)
    ∧ (∀ c : rgba, (c.r = none ∨ c.g = none ∨ c.b = none) →
      ∃ e, rgba.to_hsla c = .raised e) := by
  constructor
  · rintro ⟨ch, cs, cl, ca⟩ hnone
    cases cl with
    | none => exact ⟨_, rfl⟩
    | some lv =>
      cases cs with
      | none => exact ⟨_, rfl⟩
      | some sv =>
        cases ch with
        | none => exact ⟨_, rfl⟩
        | some hv => simp at hnone
  · rintro ⟨cr, cg, cb, ca⟩ hnone
    cases cr with
    | none => exact ⟨_, rfl⟩
    | some rv =>
      cases cg with
      | none => exact ⟨_, rfl⟩
      | some gv =>
        cases cb with
        | none => exact ⟨_, rfl⟩
        | some bv => simp at hnone

/-- C10 witness: a hue-less `hsla` and a red-less `rgba` both raise. -/
theorem C10_conversions_require_channels_witness :
    (∃ e, hsla.to_rgba ⟨none, some 1, some (1 / 2), none⟩ = .raised e)
    ∧ (∃ e, rgba.to_hsla ⟨none, some 0, some 0, none⟩ = .raised e) :=
  ⟨C10_conversions_require_channels.1 _ (Or.inl rfl),
   C10_conversions_require_channels.2 _ (Or.inl rfl)⟩
theorem PyVal.pure_eq {α : Type} (x : α) : (pure x : PyVal α) = PyVal.val x := rfl

theorem normPct_unit (x : ℚ) (hx : 0 ≤ x ∧ x ≤ 100) :
    0 ≤ normPct x ∧ normPct x ≤ 1 := by
  unfold normPct
  split_ifs with h1
  · exact ⟨div_nonneg hx.1 (by norm_num), (div_le_one (by norm_num)).mpr hx.2⟩
  · exact ⟨hx.1, le_of_not_lt h1⟩

/-- C4: the `hsla` and `rgba` constructors raise exactly when some supplied
field lies outside its documented range (hue `[0, 359]`, channels
`[0, 255]`, fractions `[0, 100]`), the message naming the field, the
offending value and the accepted range (shown for `hsla(h=360)`); a
supplied `0` is always accepted and stored for every field (the truthiness
guard skips the range test at `0`, but `0` lies inside every range, so the
acceptance condition is unaffected), and `hsla(h=0)` stores hue `0` rather
than treating it as absent. -/
theorem C4_validation_iff :
    (∀ h s l a : Option ℚ,
      (∃ e, hsla.mk' h s l a = .error e) ↔
        ¬((∀ x ∈ h, 0 ≤ x ∧ x ≤ 359) ∧ (∀ x ∈ s, 0 ≤ x ∧ x ≤ 100)
          ∧ (∀ x ∈ l, 0 ≤ x ∧ x ≤ 100) ∧ (∀ x ∈ a, 0 ≤ x ∧ x ≤ 100)))
    ∧ (∀ r g b a : Option ℚ,
      (∃ e, rgba.mk' r g b a = .error e) ↔
        ¬((∀ x ∈ r, 0 ≤ x ∧ x ≤ 255) ∧ (∀ x ∈ g, 0 ≤ x ∧ x ≤ 255)
          ∧ (∀ x ∈ b, 0 ≤ x ∧ x ≤ 255) ∧ (∀ x ∈ a, 0 ≤ x ∧ x ≤ 100)))
    ∧ hsla.mk' (some 360) none none none = .error "hue 360 not in range [0, 359]"
    ∧ hsla.mk' (some 0) none none none = .ok ⟨some 0, none, none, none⟩
    ∧ (∀ (h s l a : Option ℚ) (d : hsla), hsla.mk' h s l a = .ok d →
        d = ⟨h, s.map normPct, l.map normPct, a.map normPct⟩)
    ∧ (∀ (r g b a : Option ℚ) (d : rgba), rgba.mk' r g b a = .ok d →
        d = ⟨r, g, b, a.map normPct⟩)
    ∧ normPct 0 = 0 := by
  refine ⟨?_, ?_, by with_unfolding_all rfl, by with_unfolding_all rfl,
    ?_, ?_, by simp [normPct]⟩
  · intro h s l a
    constructor
    · rintro ⟨e, he⟩ ⟨Hh, Hs, Hl, Ha⟩
      have hok := hsla_mk_ok_of h s l a Hh Hs Hl Ha
      rw [hok] at he
      exact absurd he (by simp)
    · intro hb
      exact hsla_mk_error_of h s l a hb
  · intro r g b a
    constructor
    · rintro ⟨e, he⟩ ⟨Hr, Hg, Hb, Ha⟩
      have hok := rgba_mk_ok_of r g b a Hr Hg Hb Ha
      rw [hok] at he
      exact absurd he (by simp)
    · intro hb
      exact rgba_mk_error_of r g b a hb
  · intro h s l a d hd
    exact (hsla_mk_ok_inv h s l a d hd).1
  · intro r g b a d hd
    exact (rgba_mk_ok_inv r g b a d hd).1

theorem C4_validation_iff_witness :
    (⟨some 0, none, none, some (1 / 2)⟩ : hsla) =
      ⟨some 0, (none : Option ℚ).map normPct, (none : Option ℚ).map normPct,
        (some (50 : ℚ)).map normPct⟩ :=
  C4_validation_iff.2.2.2.2.1 (some 0) none none (some 50) _
    (by with_unfolding_all rfl)
/-- C5: a supplied saturation, lightness or alpha strictly greater than 1
is divided by 100 on storage and a value at most 1 is stored as given, so
the stored fractions of a successfully constructed value always lie in
`[0, 1]`; `hsla(s=50)` and `hsla(s=0.5)` construct field-wise equal
values. -/
theorem C5_unit_fraction_storage :
    (∀ (h s l a : Option ℚ) (d : hsla), hsla.mk' h s l a = .ok d →
      d.s = s.map normPct ∧ d.l = l.map normPct ∧ d.a = a.map normPct
      ∧ (∀ y ∈ d.s, 0 ≤ y ∧ y ≤ 1) ∧ (∀ y ∈ d.l, 0 ≤ y ∧ y ≤ 1)
      ∧ (∀ y ∈ d.a, 0 ≤ y ∧ y ≤ 1))
    ∧ (∀ x : ℚ, 1 < x → normPct x = x / 100)
    ∧ (∀ x : ℚ, x ≤ 1 → normPct x = x)
    ∧ hsla.mk' none (some 50) none none = hsla.mk' none (some (1 / 2)) none none
    ∧ hsla.mk' none (some 50) none none = .ok ⟨none, some (1 / 2), none, none⟩ := by
  refine ⟨?_, ?_, ?_, by with_unfolding_all rfl, by with_unfolding_all rfl⟩
  · intro h s l a d hd
    obtain ⟨hde, _, Hs, Hl, Ha⟩ := hsla_mk_ok_inv h s l a d hd
    subst hde
    refine ⟨rfl, rfl, rfl, ?_, ?_, ?_⟩
    · intro y hy
      obtain ⟨x, hx, hxy⟩ := Option.mem_map.mp hy
      exact hxy ▸ normPct_unit x (Hs x hx)
    · intro y hy
      obtain ⟨x, hx, hxy⟩ := Option.mem_map.mp hy
      exact hxy ▸ normPct_unit x (Hl x hx)
    · intro y hy
      obtain ⟨x, hx, hxy⟩ := Option.mem_map.mp hy
      exact hxy ▸ normPct_unit x (Ha x hx)
  · intro x hx
    simp [normPct, hx]
  · intro x hx
    simp [normPct, not_lt.mpr hx]

theorem C5_unit_fraction_storage_witness :
    (⟨none, some (1 / 2), none, none⟩ : hsla).s = (some (50 : ℚ)).map normPct :=
  (C5_unit_fraction_storage.1 none (some 50) none none _
    (by with_unfolding_all rfl)).1

/-- C7: `clone` builds a new value by passing, for each field, the
override when supplied and the receiver's current field otherwise through
the same validating and normalising constructor; on a valid receiver,
`clone()` with no overrides reproduces the receiver exactly, each
specified argument is normalised exactly as at construction, and each
unspecified field is inherited unchanged.  The embedding is pure,
mirroring that `clone` builds a fresh value and never assigns to the
receiver. -/
theorem C7_clone_inherit_validate :
    (∀ (c : hsla) (hh ss ll aa : Option ℚ),
      hsla.clone c hh ss ll aa =
        hsla.mk' (hh <|> c.h) (ss <|> c.s) (ll <|> c.l) (aa <|> c.a))
    ∧ (∀ c : hsla, c.valid = true → hsla.clone c none none none none = .ok c)
    ∧ (∀ c : hsla, c.valid = true →
        ∀ (hh ss ll aa : Option ℚ) (d : hsla), hsla.clone c hh ss ll aa = .ok d →
          d.h = (hh <|> c.h) ∧ d.s = (ss.map normPct <|> c.s)
          ∧ d.l = (ll.map normPct <|> c.l) ∧ d.a = (aa.map normPct <|> c.a))
    ∧ (∀ (c : rgba) (rr gg bb aa : Option ℚ),
      rgba.clone c rr gg bb aa =
        rgba.mk' (rr <|> c.r) (gg <|> c.g) (bb <|> c.b) (aa <|> c.a))
    ∧ (∀ c : rgba, c.valid = true → rgba.clone c none none none none = .ok c)
    ∧ (∀ c : rgba, c.valid = true →
        ∀ (rr gg bb aa : Option ℚ) (d : rgba), rgba.clone c rr gg bb aa = .ok d →
          d.r = (rr <|> c.r) ∧ d.g = (gg <|> c.g) ∧ d.b = (bb <|> c.b)
          ∧ d.a = (aa.map normPct <|> c.a)) := by
  refine ⟨fun c hh ss ll aa => rfl, ?_, ?_, fun c rr gg bb aa => rfl, ?_, ?_⟩
  · rintro ⟨ch, cs, cl, ca⟩ hv
    rw [hsla_valid_iff] at hv
    obtain ⟨Hh, Hs, Hl, Ha⟩ := hv
    have hok := hsla_mk_ok_of ch cs cl ca Hh
      (fun x hx => ⟨(Hs x hx).1, le_trans (Hs x hx).2 (by norm_num)⟩)
      (fun x hx => ⟨(Hl x hx).1, le_trans (Hl x hx).2 (by norm_num)⟩)
      (fun x hx => ⟨(Ha x hx).1, le_trans (Ha x hx).2 (by norm_num)⟩)
    rw [map_normPct_of_unit cs Hs, map_normPct_of_unit cl Hl,
        map_normPct_of_unit ca Ha] at hok
    exact hok
  · rintro ⟨ch, cs, cl, ca⟩ hv hh ss ll aa d hd
    rw [hsla_valid_iff] at hv
    obtain ⟨Hh, Hs, Hl, Ha⟩ := hv
    obtain ⟨hde, -, -, -, -⟩ :=
      hsla_mk_ok_inv (hh <|> ch) (ss <|> cs) (ll <|> cl) (aa <|> ca) d hd
    subst hde
    refine ⟨rfl, ?_, ?_, ?_⟩
    · cases ss with
      | some v => rfl
      | none => exact map_normPct_of_unit cs Hs
    · cases ll with
      | some v => rfl
      | none => exact map_normPct_of_unit cl Hl
    · cases aa with
      | some v => rfl
      | none => exact map_normPct_of_unit ca Ha
  · rintro ⟨cr, cg, cb, ca⟩ hv
    rw [rgba_valid_iff] at hv
    obtain ⟨Hr, Hg, Hb, Ha⟩ := hv
    have hok := rgba_mk_ok_of cr cg cb ca Hr Hg Hb
      (fun x hx => ⟨(Ha x hx).1, le_trans (Ha x hx).2 (by norm_num)⟩)
    rw [map_normPct_of_unit ca Ha] at hok
    exact hok
  · rintro ⟨cr, cg, cb, ca⟩ hv rr gg bb aa d hd
    rw [rgba_valid_iff] at hv
    obtain ⟨Hr, Hg, Hb, Ha⟩ := hv
    obtain ⟨hde, -, -, -, -⟩ :=
      rgba_mk_ok_inv (rr <|> cr) (gg <|> cg) (bb <|> cb) (aa <|> ca) d hd
    subst hde
    refine ⟨rfl, rfl, rfl, ?_⟩
    cases aa with
    | some v => rfl
    | none => exact map_normPct_of_unit ca Ha

theorem C7_clone_inherit_validate_witness :
    hsla.clone ⟨some 210, some (3 / 20), some (11 / 50), none⟩
        none none none none =
      .ok ⟨some 210, some (3 / 20), some (11 / 50), none⟩ :=
  C7_clone_inherit_validate.2.1 _ (by with_unfolding_all decide)
/-- C3: `to_hex` obtains `c = to_rgba()` (the identity on `rgba`) and
formats `#` followed by two lowercase zero-padded hex digits per channel,
appending two further digits for `round(alpha*255)` exactly when alpha is
set and not equal to 1; the four sample renderings hold, with
`round(0.5*255) = round(127.5) = 128 = 0x80` under banker's rounding. -/
theorem C3_to_hex_format :
    rgba.to_hex ⟨some 0, some 0, some 0, none⟩ = .val "#000000"
    ∧ rgba.to_hex WHITE = .val "#ffffff"
    ∧ rgba.mk' (some 255) (some 0) (some 0) (some (1 / 2)) =
        .ok ⟨some 255, some 0, some 0, some (1 / 2)⟩
    ∧ rgba.to_hex ⟨some 255, some 0, some 0, some (1 / 2)⟩ = .val "#ff000080"
    ∧ rgba.mk' (some 0) (some 0) (some 0) (some 1) =
        .ok ⟨some 0, some 0, some 0, some 1⟩
    ∧ rgba.to_hex ⟨some 0, some 0, some 0, some 1⟩ = .val "#000000"
    ∧ (∀ c : rgba, rgba.to_hex c = Colour.to_hex_of (.val (some c.to_rgba)))
    ∧ (∀ (r g b : Fin 256) (a : Option ℚ),
        rgba.to_hex ⟨some ((r : ℕ) : ℚ), some ((g : ℕ) : ℚ), some ((b : ℕ) : ℚ), a⟩ =
          .val ("#" ++ format02x ((r : ℕ) : ℤ) ++ format02x ((g : ℕ) : ℤ)
            ++ format02x ((b : ℕ) : ℤ)
            ++ (match a with
                | some av => if av ≠ 1 then format02x (pyRound (av * 255)) else ""
                | none => ""))) := by
  refine ⟨by with_unfolding_all rfl, by with_unfolding_all rfl,
    by with_unfolding_all rfl, by with_unfolding_all rfl,
    by with_unfolding_all rfl, by with_unfolding_all rfl,
    fun c => rfl, ?_⟩
  intro r g b a
  unfold rgba.to_hex Colour.to_hex_of rgba.to_rgba
  cases a with
  | none =>
    simp [pyFormat02x, PyVal.pure_eq, PyVal.bind_val]
  | some av =>
    by_cases hav : av = 1
    · subst hav
      simp [pyFormat02x, PyVal.pure_eq, PyVal.bind_val]
    · simp [pyFormat02x, PyVal.pure_eq, PyVal.bind_val, hav]
